import Mathlib

/-!
Shallow embedding of the telegraf odyssey input plugin
(plugins/inputs/odyssey/odyssey.go) and verification of its specified
properties.

The plugin issues two queries, SHOW STATS and SHOW POOLS, against an
Odyssey connection pooler, scans each row into a column-name-to-value
map of dynamically typed values, and emits one metric per row.  The
embedding models a scanned row as an association list pairing column
names with decoded values, the accumulator as the list of emitted
metrics, and the external collaborators (query execution, row scanning,
address sanitization, end-of-iteration error) as explicit inputs.
-/

namespace Odyssey

/-- A dynamically typed scalar decoded from one column of a result row,
the closed set of value shapes the Go code can observe in an
interface value after row scanning: a native signed 64-bit integer, a
string, a floating point number (carried as an uninterpreted bit pattern,
since the code never inspects float contents), a boolean, or SQL NULL
(a nil interface). -/
inductive ColumnValue where
  | int64 (i : Int)
  | str (s : String)
  | float64 (bits : Nat)
  | boolean (b : Bool)
  | null
deriving DecidableEq, Repr

/-- A scanned result row: the column names in result-set order, each
paired with the value decoded into its slot by row.Scan. -/
abbrev Row := List (String × ColumnValue)

/-- Errors the embedded code can return: an error produced by an
external collaborator (query execution, row scan, column discovery,
address sanitization, end-of-iteration check), or the error from
strconv.ParseInt on the given input string. -/
inductive GoError where
  | external (msg : String)
  | parseInt (input : String)
deriving DecidableEq, Repr

/-- Outcome of a step of the embedded Go code: a normal return value,
a returned error, or a runtime panic (caused by the unchecked type
assertion in accRow). -/
inductive GoResult (α : Type) where
  | ok (a : α)
  | err (e : GoError)
  | panics
deriving DecidableEq, Repr

/-- The package-level ignoredColumns set of odyssey.go, as the list of
its keys (all mapped to true in the source). -/
def ignoredColumns : List String :=
  ["user", "database", "pool_mode", "avg_req", "avg_recv", "avg_sent", "avg_query"]

/-- A tag map, map from tag key to tag value, as an association list. -/
abbrev TagSet := List (String × String)

/-- A field map, map from column name to stored value, as an
association list. -/
abbrev FieldSet := List (String × ColumnValue)

/-- Go map assignment m[k] = v on a string map: overwrite the entry
for k if present, otherwise add it. -/
def tagInsert (m : TagSet) (k v : String) : TagSet :=
  if m.any (fun p => decide (p.1 = k)) then
    m.map (fun p => if p.1 = k then (k, v) else p)
  else
    m ++ [(k, v)]

/-- The db-name extraction step of accRow.  If the scanned row has a
"database" column, the source dereferences its slot and performs the
unchecked type assertion (*columnMap["database"]).(string): a string
value (even the empty string) is written into the name buffer, while
any non-string value, including the nil interface a SQL NULL decodes
to, makes the assertion panic.  If the row has no "database" column the
map lookup yields a nil pointer and the literal "postgres" is used. -/
def dbnameOf (row : Row) : GoResult String :=
  match row.lookup "database" with
  | some (ColumnValue.str s) => GoResult.ok s
  | some _ => GoResult.panics
  | none => GoResult.ok "postgres"

/-- accRow of odyssey.go.  The scan outcome (row.Scan through the
column slots) is passed in as `scan`; a scan error is returned as is.
After a successful scan the db name is extracted (possibly panicking),
then SanitizedAddress is consulted (its outcome passed in as
`sanitized`); an error there is returned.  On success accRow returns
the basic tags, server and db, together with the column map. -/
def accRow (sanitized : Except GoError String) (scan : Except GoError Row) :
    GoResult (TagSet × Row) :=
  match scan with
  | Except.error e => GoResult.err e
  | Except.ok row =>
    match dbnameOf row with
    | GoResult.panics => GoResult.panics
    | GoResult.err e => GoResult.err e
    | GoResult.ok dbname =>
      match sanitized with
      | Except.error e => GoResult.err e
      | Except.ok addr => GoResult.ok ([("server", addr), ("db", dbname)], row)

/-- Numeric value of a list of decimal digit characters. -/
def digitsVal (l : List Char) : Nat :=
  l.foldl (fun a c => a * 10 + (c.toNat - 48)) 0

/-- strconv.ParseInt(s, 10, 64) of the Go standard library, returning
some value on success and none on any error.  Base 10 with an explicit
bit size of 64: an optional single leading + or - sign followed by at
least one ASCII decimal digit, and the resulting value must fit in a
signed 64-bit integer; anything else (empty string, stray characters,
underscores, spaces, overflow) is an error. -/
def goParseInt64 (s : String) : Option Int :=
  let signed : Bool × List Char :=
    match s.data with
    | '-' :: rest => (true, rest)
    | '+' :: rest => (false, rest)
    | rest => (false, rest)
  let ds := signed.2
  if ds.isEmpty then none
  else if ds.all Char.isDigit then
    let v : Int := if signed.1 then -(digitsVal ds : Int) else (digitsVal ds : Int)
    if -(2 ^ 63) ≤ v ∧ v ≤ 2 ^ 63 - 1 then some v else none
  else none

/-- The field-building loop of the SHOW STATS pass of Gather: walk the
column map, skip ignored columns, copy native int64 values through,
parse string values with strconv.ParseInt (a parse failure returns the
error, aborting the whole Gather), and silently drop values of any
other type. -/
def statsFields : Row → Except GoError FieldSet
  | [] => Except.ok []
  | (col, v) :: rest =>
    if col ∈ ignoredColumns then statsFields rest
    else
      match v with
      | ColumnValue.int64 i =>
        (statsFields rest).map (fun fs => (col, ColumnValue.int64 i) :: fs)
      | ColumnValue.str s =>
        match goParseInt64 s with
        | some i => (statsFields rest).map (fun fs => (col, ColumnValue.int64 i) :: fs)
        | none => Except.error (GoError.parseInt s)
      | _ => statsFields rest

/-- One tag-extraction block of the SHOW POOLS pass of Gather: given
the looked-up column slot (none when the column map has no such
column), if the value is a string (checked assertion, comma-ok form)
and that string is non-empty, set the tag under the given key. -/
def tagStrCol (tags : TagSet) (key : String) (o : Option ColumnValue) : TagSet :=
  match o with
  | some (ColumnValue.str s) => if s ≠ "" then tagInsert tags key s else tags
  | _ => tags

/-- The tag-extraction steps of the SHOW POOLS pass of Gather: the
"user" block followed by the "pool_mode" block. -/
def poolsTags (tags : TagSet) (row : Row) : TagSet :=
  tagStrCol (tagStrCol tags "user" (row.lookup "user")) "pool_mode"
    (row.lookup "pool_mode")

/-- The field-building loop of the SHOW POOLS pass of Gather: every
column not in ignoredColumns is stored in the field map with its value
unchanged. -/
def poolsFields (row : Row) : FieldSet :=
  row.filter (fun p => decide (p.1 ∉ ignoredColumns))

/-- A metric as handed to acc.AddFields: measurement name, tags and
fields. -/
structure Metric where
  name : String
  tags : TagSet
  fields : FieldSet
deriving DecidableEq, Repr

/-- Processing of one row of the SHOW STATS loop body: accRow, then
the strict field coercion, then the "odyssey" metric handed to the
accumulator. -/
def processStatsRow (sanitized : Except GoError String)
    (scan : Except GoError Row) : GoResult Metric :=
  match accRow sanitized scan with
  | GoResult.panics => GoResult.panics
  | GoResult.err e => GoResult.err e
  | GoResult.ok (tags, columnMap) =>
    match statsFields columnMap with
    | Except.error e => GoResult.err e
    | Except.ok fields => GoResult.ok ⟨"odyssey", tags, fields⟩

/-- Processing of one row of the SHOW POOLS loop body: accRow, then
the user and pool_mode tag extraction, then the pass-through field
map, then the "odyssey_pools" metric handed to the accumulator. -/
def processPoolsRow (sanitized : Except GoError String)
    (scan : Except GoError Row) : GoResult Metric :=
  match accRow sanitized scan with
  | GoResult.panics => GoResult.panics
  | GoResult.err e => GoResult.err e
  | GoResult.ok (tags, columnMap) =>
    GoResult.ok ⟨"odyssey_pools", poolsTags tags columnMap, poolsFields columnMap⟩

/-- The shape shared by the two row loops of Gather: process the scan
outcomes in order; each successfully processed row immediately hands
its metric to the accumulator; the first returned error or panic stops
the loop, leaving the metrics accumulated so far emitted.  Returns the
emitted metrics and the loop outcome. -/
def runLoop (process : Except GoError Row → GoResult Metric) :
    List (Except GoError Row) → List Metric × GoResult Unit
  | [] => ([], GoResult.ok ())
  | scan :: rest =>
    match process scan with
    | GoResult.err e => ([], GoResult.err e)
    | GoResult.panics => ([], GoResult.panics)
    | GoResult.ok m =>
      let r := runLoop process rest
      (m :: r.1, r.2)

/-- The observable outcome of one query of the database collaborator:
the outcome of the column discovery call rows.Columns (some error, or
none), the successive row scan outcomes delivered by rows.Next and
row.Scan, and the end-of-iteration outcome of rows.Err. -/
structure QueryResult where
  columnsErr : Option GoError
  scans : List (Except GoError Row)
  iterErr : Option GoError

/-- The external-collaborator inputs of one Gather cycle: the outcome
of SanitizedAddress, and the outcomes of the SHOW STATS and SHOW POOLS
queries (an error from DB.Query, or a result set). -/
structure GatherInput where
  sanitized : Except GoError String
  statsQuery : Except GoError QueryResult
  poolsQuery : Except GoError QueryResult

/-- Gather of odyssey.go: run SHOW STATS, check column discovery, run
the stats row loop, check rows.Err; then run SHOW POOLS, check column
discovery, run the pools row loop, and return poolRows.Err.  The first
component collects every metric handed to the accumulator before the
cycle ended, the second is the cycle outcome. -/
def gather (inp : GatherInput) : List Metric × GoResult Unit :=
  match inp.statsQuery with
  | Except.error e => ([], GoResult.err e)
  | Except.ok qr =>
    match qr.columnsErr with
    | some e => ([], GoResult.err e)
    | none =>
      let r1 := runLoop (processStatsRow inp.sanitized) qr.scans
      match r1.2 with
      | GoResult.err e => (r1.1, GoResult.err e)
      | GoResult.panics => (r1.1, GoResult.panics)
      | GoResult.ok _ =>
        match qr.iterErr with
        | some e => (r1.1, GoResult.err e)
        | none =>
          match inp.poolsQuery with
          | Except.error e => (r1.1, GoResult.err e)
          | Except.ok qr2 =>
            match qr2.columnsErr with
            | some e => (r1.1, GoResult.err e)
            | none =>
              let r2 := runLoop (processPoolsRow inp.sanitized) qr2.scans
              match r2.2 with
              | GoResult.err e => (r1.1 ++ r2.1, GoResult.err e)
              | GoResult.panics => (r1.1 ++ r2.1, GoResult.panics)
              | GoResult.ok _ =>
                match qr2.iterErr with
                | some e => (r1.1 ++ r2.1, GoResult.err e)
                | none => (r1.1 ++ r2.1, GoResult.ok ())

/-! ### Helper definitions and lemmas for the proofs -/

/-- The per-column coercion of the SHOW STATS field loop, as an
option-valued map: none when the column is skipped (ignored, or of a
type that is silently dropped), some field entry otherwise.  A string column that
does not parse also yields none here; rowGood rules that case out. -/
def coerceCol (p : String × ColumnValue) : Option (String × ColumnValue) :=
  if p.1 ∈ ignoredColumns then none
  else
    match p.2 with
    | ColumnValue.int64 i => some (p.1, ColumnValue.int64 i)
    | ColumnValue.str s => (goParseInt64 s).map (fun i => (p.1, ColumnValue.int64 i))
    | _ => none

/-- A row on which the strict coercion of the SHOW STATS pass does not
fail: every non-ignored string column parses as an integer. -/
def rowGood (row : Row) : Prop :=
  ∀ c s, (c, ColumnValue.str s) ∈ row → c ∉ ignoredColumns → goParseInt64 s ≠ none

theorem statsFields_ok_iff (row : Row) (fs : FieldSet) :
    statsFields row = Except.ok fs ↔ (rowGood row ∧ fs = row.filterMap coerceCol) := by
  induction row generalizing fs with
  | nil =>
    simp only [statsFields, List.filterMap_nil, rowGood]
    constructor
    · intro h
      refine ⟨fun c s hmem _ => absurd hmem (List.not_mem_nil _), ?_⟩
      exact (Except.ok.injEq _ _ ▸ h).symm
    · intro ⟨_, h⟩
      rw [h]
  | cons p rest ih =>
    obtain ⟨col, v⟩ := p
    by_cases hig : col ∈ ignoredColumns
    · have hgood : rowGood ((col, v) :: rest) ↔ rowGood rest := by
        constructor
        · intro h c s hmem hni
          exact h c s (List.mem_cons_of_mem _ hmem) hni
        · intro h c s hmem hni
          rcases List.mem_cons.mp hmem with heq | hmem2
          · obtain ⟨rfl, rfl⟩ := Prod.mk.injEq .. ▸ heq
            exact absurd hig hni
          · exact h c s hmem2 hni
      have hcoe : coerceCol (col, v) = none := by simp [coerceCol, hig]
      simp only [statsFields, if_pos hig, List.filterMap_cons, hcoe, hgood]
      exact ih fs
    · cases v with
      | int64 i =>
        have hgood : rowGood ((col, ColumnValue.int64 i) :: rest) ↔ rowGood rest := by
          constructor
          · intro h c s hmem hni
            exact h c s (List.mem_cons_of_mem _ hmem) hni
          · intro h c s hmem hni
            rcases List.mem_cons.mp hmem with heq | hmem2
            · exact absurd heq.symm (by simp)
            · exact h c s hmem2 hni
        have hcoe : coerceCol (col, ColumnValue.int64 i)
            = some (col, ColumnValue.int64 i) := by simp [coerceCol, hig]
        simp only [statsFields, if_neg hig, List.filterMap_cons, hcoe, hgood]
        cases hrest : statsFields rest with
        | error e =>
          simp only [Except.map]
          constructor
          · intro h
            exact absurd h (by simp)
          · intro ⟨hg, _⟩
            have := (ih (rest.filterMap coerceCol)).mpr ⟨hg, rfl⟩
            rw [hrest] at this
            exact absurd this (by simp)
        | ok fs2 =>
          simp only [Except.map]
          have hrest2 := ih fs2
          rw [hrest] at hrest2
          obtain ⟨hg, hfs2⟩ := hrest2.mp rfl
          constructor
          · intro h
            refine ⟨hg, ?_⟩
            rw [← hfs2]
            exact (Except.ok.injEq _ _ ▸ h).symm
          · intro ⟨_, h⟩
            rw [h, ← hfs2]
      | str s =>
        cases hp : goParseInt64 s with
        | some i =>
          have hgood : rowGood ((col, ColumnValue.str s) :: rest) ↔ rowGood rest := by
            constructor
            · intro h c s2 hmem hni
              exact h c s2 (List.mem_cons_of_mem _ hmem) hni
            · intro h c s2 hmem hni
              rcases List.mem_cons.mp hmem with heq | hmem2
              · obtain ⟨rfl, hv⟩ := Prod.mk.injEq .. ▸ heq
                obtain rfl : s2 = s := by injection hv
                rw [hp]
                exact Option.some_ne_none i
              · exact h c s2 hmem2 hni
          have hcoe : coerceCol (col, ColumnValue.str s)
              = some (col, ColumnValue.int64 i) := by simp [coerceCol, hig, hp]
          simp only [statsFields, if_neg hig, hp, List.filterMap_cons, hcoe, hgood]
          cases hrest : statsFields rest with
          | error e =>
            simp only [Except.map]
            constructor
            · intro h
              exact absurd h (by simp)
            · intro ⟨hg, _⟩
              have := (ih (rest.filterMap coerceCol)).mpr ⟨hg, rfl⟩
              rw [hrest] at this
              exact absurd this (by simp)
          | ok fs2 =>
            simp only [Except.map]
            have hrest2 := ih fs2
            rw [hrest] at hrest2
            obtain ⟨hg, hfs2⟩ := hrest2.mp rfl
            constructor
            · intro h
              refine ⟨hg, ?_⟩
              rw [← hfs2]
              exact (Except.ok.injEq _ _ ▸ h).symm
            · intro ⟨_, h⟩
              rw [h, ← hfs2]
        | none =>
          simp only [statsFields, if_neg hig, hp]
          constructor
          · intro h
            exact absurd h (by simp)
          · intro ⟨hg, _⟩
            have := hg col s (List.mem_cons_self _ _) hig
            exact absurd hp this
      | float64 bits =>
        have hgood : rowGood ((col, ColumnValue.float64 bits) :: rest) ↔ rowGood rest := by
          constructor
          · intro h c s hmem hni
            exact h c s (List.mem_cons_of_mem _ hmem) hni
          · intro h c s hmem hni
            rcases List.mem_cons.mp hmem with heq | hmem2
            · exact absurd heq.symm (by simp)
            · exact h c s hmem2 hni
        have hcoe : coerceCol (col, ColumnValue.float64 bits) = none := by
          simp [coerceCol, hig]
        simp only [statsFields, if_neg hig, List.filterMap_cons, hcoe, hgood]
        exact ih fs
      | boolean b =>
        have hgood : rowGood ((col, ColumnValue.boolean b) :: rest) ↔ rowGood rest := by
          constructor
          · intro h c s hmem hni
            exact h c s (List.mem_cons_of_mem _ hmem) hni
          · intro h c s hmem hni
            rcases List.mem_cons.mp hmem with heq | hmem2
            · exact absurd heq.symm (by simp)
            · exact h c s hmem2 hni
        have hcoe : coerceCol (col, ColumnValue.boolean b) = none := by
          simp [coerceCol, hig]
        simp only [statsFields, if_neg hig, List.filterMap_cons, hcoe, hgood]
        exact ih fs
      | null =>
        have hgood : rowGood ((col, ColumnValue.null) :: rest) ↔ rowGood rest := by
          constructor
          · intro h c s hmem hni
            exact h c s (List.mem_cons_of_mem _ hmem) hni
          · intro h c s hmem hni
            rcases List.mem_cons.mp hmem with heq | hmem2
            · exact absurd heq.symm (by simp)
            · exact h c s hmem2 hni
        have hcoe : coerceCol (col, ColumnValue.null) = none := by
          simp [coerceCol, hig]
        simp only [statsFields, if_neg hig, List.filterMap_cons, hcoe, hgood]
        exact ih fs

theorem keys_nodup_val_unique {l : Row} (hnd : (l.map Prod.fst).Nodup)
    {c : String} {v w : ColumnValue} (h1 : (c, v) ∈ l) (h2 : (c, w) ∈ l) : v = w := by
  induction l with
  | nil => exact absurd h1 (List.not_mem_nil _)
  | cons p rest ih =>
    simp only [List.map_cons, List.nodup_cons] at hnd
    rcases List.mem_cons.mp h1 with h1 | h1 <;> rcases List.mem_cons.mp h2 with h2 | h2
    · exact (Prod.ext_iff.mp (h1.trans h2.symm)).2
    · exfalso
      apply hnd.1
      rw [← h1]
      exact List.mem_map.mpr ⟨(c, w), h2, rfl⟩
    · exfalso
      apply hnd.1
      rw [← h2]
      exact List.mem_map.mpr ⟨(c, v), h1, rfl⟩
    · exact ih hnd.2 h1 h2

theorem statsFields_error_of_bad {row : Row} {c s : String}
    (hmem : (c, ColumnValue.str s) ∈ row) (hni : c ∉ ignoredColumns)
    (hbad : goParseInt64 s = none) : ∃ e, statsFields row = Except.error e := by
  cases h : statsFields row with
  | error e => exact ⟨e, rfl⟩
  | ok fs =>
    obtain ⟨hg, _⟩ := (statsFields_ok_iff row fs).mp h
    exact absurd hbad (hg c s hmem hni)

theorem accRow_ok_inv {sanitized : Except GoError String} {scan : Except GoError Row}
    {p : TagSet × Row} (h : accRow sanitized scan = GoResult.ok p) :
    ∃ addr dbname row, sanitized = Except.ok addr ∧ scan = Except.ok row ∧
      dbnameOf row = GoResult.ok dbname ∧
      p = ([("server", addr), ("db", dbname)], row) := by
  cases scan with
  | error e => exact absurd h (by simp [accRow])
  | ok row =>
    cases hdb : dbnameOf row with
    | panics => exact absurd h (by simp [accRow, hdb])
    | err e => exact absurd h (by simp [accRow, hdb])
    | ok dbname =>
      cases sanitized with
      | error e => exact absurd h (by simp [accRow, hdb])
      | ok addr =>
        refine ⟨addr, dbname, row, rfl, rfl, hdb, ?_⟩
        simpa [accRow, hdb] using h.symm

theorem processStatsRow_ok_inv {sanitized : Except GoError String}
    {scan : Except GoError Row} {m : Metric}
    (h : processStatsRow sanitized scan = GoResult.ok m) :
    ∃ addr dbname row fields, sanitized = Except.ok addr ∧ scan = Except.ok row ∧
      dbnameOf row = GoResult.ok dbname ∧ statsFields row = Except.ok fields ∧
      m = ⟨"odyssey", [("server", addr), ("db", dbname)], fields⟩ := by
  cases hacc : accRow sanitized scan with
  | panics => simp [processStatsRow, hacc] at h
  | err e => simp [processStatsRow, hacc] at h
  | ok p =>
    obtain ⟨tags, cmap⟩ := p
    simp only [processStatsRow, hacc] at h
    obtain ⟨addr, dbname, row, hs, hscan, hdb, hp⟩ := accRow_ok_inv hacc
    injection hp with htags hcmap
    cases hsf : statsFields cmap with
    | error e => simp [hsf] at h
    | ok fields =>
      rw [hsf] at h
      refine ⟨addr, dbname, row, fields, hs, hscan, hdb, ?_, ?_⟩
      · rw [← hcmap]; exact hsf
      · simp only [GoResult.ok.injEq] at h
        rw [← h, htags]

theorem processPoolsRow_ok_inv {sanitized : Except GoError String}
    {scan : Except GoError Row} {m : Metric}
    (h : processPoolsRow sanitized scan = GoResult.ok m) :
    ∃ addr dbname row, sanitized = Except.ok addr ∧ scan = Except.ok row ∧
      dbnameOf row = GoResult.ok dbname ∧
      m = ⟨"odyssey_pools", poolsTags [("server", addr), ("db", dbname)] row,
           poolsFields row⟩ := by
  cases hacc : accRow sanitized scan with
  | panics => simp [processPoolsRow, hacc] at h
  | err e => simp [processPoolsRow, hacc] at h
  | ok p =>
    obtain ⟨tags, cmap⟩ := p
    simp only [processPoolsRow, hacc] at h
    obtain ⟨addr, dbname, row, hs, hscan, hdb, hp⟩ := accRow_ok_inv hacc
    injection hp with htags hcmap
    refine ⟨addr, dbname, row, hs, hscan, hdb, ?_⟩
    simp only [GoResult.ok.injEq] at h
    rw [← h, htags, hcmap]

theorem runLoop_mem {f : Except GoError Row → GoResult Metric}
    {scans : List (Except GoError Row)} {m : Metric}
    (hm : m ∈ (runLoop f scans).1) : ∃ scan ∈ scans, f scan = GoResult.ok m := by
  induction scans with
  | nil => exact absurd hm (List.not_mem_nil _)
  | cons scan rest ih =>
    unfold runLoop at hm
    cases hf : f scan with
    | err e => rw [hf] at hm; exact absurd hm (List.not_mem_nil _)
    | panics => rw [hf] at hm; exact absurd hm (List.not_mem_nil _)
    | ok m2 =>
      rw [hf] at hm
      simp only [List.mem_cons] at hm
      rcases hm with rfl | hm
      · exact ⟨scan, List.mem_cons_self _ _, hf⟩
      · obtain ⟨scan2, hmem, hf2⟩ := ih hm
        exact ⟨scan2, List.mem_cons_of_mem _ hmem, hf2⟩

theorem runLoop_not_ok {f : Except GoError Row → GoResult Metric}
    {scans : List (Except GoError Row)} {scan : Except GoError Row}
    (hmem : scan ∈ scans) (hbad : ∀ m, f scan ≠ GoResult.ok m) :
    (runLoop f scans).2 ≠ GoResult.ok () := by
  induction scans with
  | nil => exact absurd hmem (List.not_mem_nil _)
  | cons x rest ih =>
    unfold runLoop
    rcases List.mem_cons.mp hmem with rfl | hmem2
    · cases hf : f scan with
      | err e => simp
      | panics => simp
      | ok m => exact absurd hf (hbad m)
    · cases hf : f x with
      | err e => simp
      | panics => simp
      | ok m => simpa using ih hmem2

theorem runLoop_len_le {f : Except GoError Row → GoResult Metric}
    {scan : Except GoError Row} (hbad : ∀ m, f scan ≠ GoResult.ok m) :
    ∀ (pre post : List (Except GoError Row)),
      (runLoop f (pre ++ scan :: post)).1.length ≤ pre.length := by
  intro pre
  induction pre with
  | nil =>
    intro post
    simp only [List.nil_append, runLoop]
    cases hf : f scan with
    | err e => simp
    | panics => simp
    | ok m => exact absurd hf (hbad m)
  | cons x pre2 ih =>
    intro post
    simp only [List.cons_append, runLoop]
    cases hf : f x with
    | err e => simp
    | panics => simp
    | ok m =>
      simpa using Nat.succ_le_succ (ih post)

theorem runLoop_prefix_ok {f : Except GoError Row → GoResult Metric} :
    ∀ (pre rest : List (Except GoError Row)),
      (∀ x ∈ pre, ∃ m, f x = GoResult.ok m) →
      ∃ M, List.Forall₂ (fun scan m => f scan = GoResult.ok m) pre M ∧
        runLoop f (pre ++ rest)
          = (M ++ (runLoop f rest).1, (runLoop f rest).2) := by
  intro pre
  induction pre with
  | nil =>
    intro rest _
    exact ⟨[], List.Forall₂.nil, by simp⟩
  | cons x pre2 ih =>
    intro rest hok
    obtain ⟨mx, hx⟩ := hok x (List.mem_cons_self _ _)
    obtain ⟨M, hF, hrun⟩ := ih rest (fun y hy => hok y (List.mem_cons_of_mem _ hy))
    refine ⟨mx :: M, List.Forall₂.cons hx hF, ?_⟩
    simp [runLoop, hx, hrun]

theorem runLoop_get_pos {f : Except GoError Row → GoResult Metric}
    {scan : Except GoError Row} {m : Metric} (hm : f scan = GoResult.ok m) :
    ∀ (pre post : List (Except GoError Row)),
      (∀ x ∈ pre, ∃ mm, f x = GoResult.ok mm) →
      (runLoop f (pre ++ scan :: post)).1[pre.length]? = some m := by
  intro pre
  induction pre with
  | nil =>
    intro post _
    simp [runLoop, hm]
  | cons x pre2 ih =>
    intro post hok
    obtain ⟨mx, hx⟩ := hok x (List.mem_cons_self _ _)
    simp only [List.cons_append, runLoop, hx, List.length_cons, List.getElem?_cons_succ]
    exact ih post (fun y hy => hok y (List.mem_cons_of_mem _ hy))

theorem lookup_overwrite_ne {k v k' : String} (h : k' ≠ k) :
    ∀ m : TagSet,
      (m.map (fun p => if p.1 = k then (k, v) else p)).lookup k' = m.lookup k' := by
  intro m
  induction m with
  | nil => rfl
  | cons p rest ih =>
    obtain ⟨pk, pv⟩ := p
    by_cases hp : pk = k
    · subst hp
      simp only [List.map_cons, eq_self_iff_true, if_true, List.lookup_cons,
        beq_false_of_ne h]
      exact ih
    · simp only [List.map_cons, if_neg hp, List.lookup_cons]
      by_cases hk : k' = pk
      · simp [beq_iff_eq, hk]
      · simp only [beq_false_of_ne hk]
        exact ih

theorem lookup_append_single_ne {k v k' : String} (h : k' ≠ k) :
    ∀ m : TagSet, (m ++ [(k, v)]).lookup k' = m.lookup k' := by
  intro m
  induction m with
  | nil => simp [List.lookup_cons, beq_false_of_ne h]
  | cons p rest ih =>
    obtain ⟨pk, pv⟩ := p
    simp only [List.cons_append, List.lookup_cons]
    by_cases hk : k' = pk
    · simp [beq_iff_eq, hk]
    · simp only [beq_false_of_ne hk]
      exact ih

theorem tagInsert_lookup_ne {m : TagSet} {k v k' : String} (h : k' ≠ k) :
    (tagInsert m k v).lookup k' = m.lookup k' := by
  unfold tagInsert
  by_cases hany : m.any (fun p => decide (p.1 = k))
  · rw [if_pos hany]
    exact lookup_overwrite_ne h m
  · rw [if_neg hany]
    exact lookup_append_single_ne h m

theorem tagInsert_lookup_self {m : TagSet} {k v : String} :
    (tagInsert m k v).lookup k = some v := by
  unfold tagInsert
  by_cases hany : m.any (fun p => decide (p.1 = k))
  · rw [if_pos hany]
    induction m with
    | nil => simp at hany
    | cons p rest ih =>
      obtain ⟨pk, pv⟩ := p
      by_cases hp : pk = k
      · subst hp
        simp [List.lookup_cons]
      · have hrest : rest.any (fun p => decide (p.1 = k)) := by
          simp only [List.any_cons] at hany
          simpa [hp] using hany
        simp only [List.map_cons, if_neg hp, List.lookup_cons,
          beq_false_of_ne (fun he => hp he.symm)]
        exact ih hrest
  · rw [if_neg hany]
    induction m with
    | nil => simp [List.lookup_cons]
    | cons p rest ih =>
      obtain ⟨pk, pv⟩ := p
      simp only [List.any_cons, Bool.or_eq_true, not_or] at hany
      have hk : (k == pk) = false := by
        rw [beq_eq_false_iff_ne]
        intro he
        exact absurd (by simp [he]) hany.1
      simp only [List.cons_append, List.lookup_cons, hk]
      exact ih (by simpa using hany.2)

theorem tagStrCol_lookup_ne {t : TagSet} {key k : String} {o : Option ColumnValue}
    (hk : k ≠ key) : (tagStrCol t key o).lookup k = t.lookup k := by
  cases o with
  | none => rfl
  | some v =>
    cases v with
    | str s =>
      by_cases hs : s ≠ ""
      · simp only [tagStrCol, if_pos hs]
        exact tagInsert_lookup_ne hk
      · simp only [tagStrCol, if_neg hs]
    | int64 i => rfl
    | float64 bits => rfl
    | boolean b => rfl
    | null => rfl

theorem tagStrCol_lookup_self {t : TagSet} {key : String} {o : Option ColumnValue}
    (hbase : t.lookup key = none) (s : String) :
    (tagStrCol t key o).lookup key = some s ↔
      (o = some (ColumnValue.str s) ∧ s ≠ "") := by
  cases o with
  | none => simp [tagStrCol, hbase]
  | some v =>
    cases v with
    | str s2 =>
      by_cases hs2 : s2 ≠ ""
      · simp only [tagStrCol, if_pos hs2, tagInsert_lookup_self,
          Option.some.injEq, ColumnValue.str.injEq]
        constructor
        · intro h
          exact ⟨h, h ▸ hs2⟩
        · intro ⟨h, _⟩
          exact h
      · simp only [tagStrCol, if_neg hs2, hbase, Option.some.injEq,
          ColumnValue.str.injEq]
        rw [not_not] at hs2
        constructor
        · intro h
          exact absurd h (by simp)
        · intro ⟨h, hne⟩
          exact absurd (hs2 ▸ h.symm) hne
    | int64 i => simp [tagStrCol, hbase]
    | float64 bits => simp [tagStrCol, hbase]
    | boolean b => simp [tagStrCol, hbase]
    | null => simp [tagStrCol, hbase]

theorem poolsTags_lookup_other {t : TagSet} {row : Row} {k : String}
    (h1 : k ≠ "user") (h2 : k ≠ "pool_mode") :
    (poolsTags t row).lookup k = t.lookup k := by
  unfold poolsTags
  rw [tagStrCol_lookup_ne h2, tagStrCol_lookup_ne h1]

theorem gather_stats_fail {inp : GatherInput} {qr : QueryResult}
    (h1 : inp.statsQuery = Except.ok qr) (h2 : qr.columnsErr = none)
    (h3 : (runLoop (processStatsRow inp.sanitized) qr.scans).2 ≠ GoResult.ok ()) :
    gather inp = ((runLoop (processStatsRow inp.sanitized) qr.scans).1,
                  (runLoop (processStatsRow inp.sanitized) qr.scans).2) := by
  cases hr : (runLoop (processStatsRow inp.sanitized) qr.scans).2 with
  | ok u => cases u; exact absurd hr h3
  | err e => simp [gather, h1, h2, hr]
  | panics => simp [gather, h1, h2, hr]

theorem gather_stats_iterr {inp : GatherInput} {qr : QueryResult} {e : GoError}
    (h1 : inp.statsQuery = Except.ok qr) (h2 : qr.columnsErr = none)
    (h3 : (runLoop (processStatsRow inp.sanitized) qr.scans).2 = GoResult.ok ())
    (h4 : qr.iterErr = some e) :
    gather inp
      = ((runLoop (processStatsRow inp.sanitized) qr.scans).1, GoResult.err e) := by
  simp [gather, h1, h2, h3, h4]

theorem gather_pools_iterr {inp : GatherInput} {qr qr2 : QueryResult} {e : GoError}
    (h1 : inp.statsQuery = Except.ok qr) (h2 : qr.columnsErr = none)
    (h3 : (runLoop (processStatsRow inp.sanitized) qr.scans).2 = GoResult.ok ())
    (h4 : qr.iterErr = none) (h5 : inp.poolsQuery = Except.ok qr2)
    (h6 : qr2.columnsErr = none)
    (h7 : (runLoop (processPoolsRow inp.sanitized) qr2.scans).2 = GoResult.ok ())
    (h8 : qr2.iterErr = some e) :
    gather inp
      = ((runLoop (processStatsRow inp.sanitized) qr.scans).1
          ++ (runLoop (processPoolsRow inp.sanitized) qr2.scans).1,
         GoResult.err e) := by
  simp [gather, h1, h2, h3, h4, h5, h6, h7, h8]

theorem gather_metrics_src {inp : GatherInput} {m : Metric}
    (hm : m ∈ (gather inp).1) :
    (∃ qr, inp.statsQuery = Except.ok qr ∧
       ∃ scan ∈ qr.scans, processStatsRow inp.sanitized scan = GoResult.ok m) ∨
    (∃ qr2, inp.poolsQuery = Except.ok qr2 ∧
       ∃ scan ∈ qr2.scans, processPoolsRow inp.sanitized scan = GoResult.ok m) := by
  cases hq : inp.statsQuery with
  | error e => simp [gather, hq] at hm
  | ok qr =>
    cases hc : qr.columnsErr with
    | some e => simp [gather, hq, hc] at hm
    | none =>
      cases hr : (runLoop (processStatsRow inp.sanitized) qr.scans).2 with
      | err e =>
        have hmem : m ∈ (runLoop (processStatsRow inp.sanitized) qr.scans).1 := by
          simpa [gather, hq, hc, hr] using hm
        exact Or.inl ⟨qr, rfl, runLoop_mem hmem⟩
      | panics =>
        have hmem : m ∈ (runLoop (processStatsRow inp.sanitized) qr.scans).1 := by
          simpa [gather, hq, hc, hr] using hm
        exact Or.inl ⟨qr, rfl, runLoop_mem hmem⟩
      | ok u =>
        cases u
        cases hi : qr.iterErr with
        | some e =>
          have hmem : m ∈ (runLoop (processStatsRow inp.sanitized) qr.scans).1 := by
            simpa [gather, hq, hc, hr, hi] using hm
          exact Or.inl ⟨qr, rfl, runLoop_mem hmem⟩
        | none =>
          cases hpq : inp.poolsQuery with
          | error e =>
            have hmem : m ∈ (runLoop (processStatsRow inp.sanitized) qr.scans).1 := by
              simpa [gather, hq, hc, hr, hi, hpq] using hm
            exact Or.inl ⟨qr, rfl, runLoop_mem hmem⟩
          | ok qr2 =>
            cases hc2 : qr2.columnsErr with
            | some e =>
              have hmem : m ∈ (runLoop (processStatsRow inp.sanitized) qr.scans).1 := by
                simpa [gather, hq, hc, hr, hi, hpq, hc2] using hm
              exact Or.inl ⟨qr, rfl, runLoop_mem hmem⟩
            | none =>
              have finish2 :
                  m ∈ (runLoop (processStatsRow inp.sanitized) qr.scans).1
                    ∨ m ∈ (runLoop (processPoolsRow inp.sanitized) qr2.scans).1 →
                  (∃ qr3, (Except.ok qr : Except GoError QueryResult) = Except.ok qr3 ∧
                    ∃ scan ∈ qr3.scans,
                      processStatsRow inp.sanitized scan = GoResult.ok m) ∨
                  (∃ qr3, (Except.ok qr2 : Except GoError QueryResult) = Except.ok qr3 ∧
                    ∃ scan ∈ qr3.scans,
                      processPoolsRow inp.sanitized scan = GoResult.ok m) := by
                intro hmem
                rcases hmem with hmem | hmem
                · exact Or.inl ⟨qr, rfl, runLoop_mem hmem⟩
                · exact Or.inr ⟨qr2, rfl, runLoop_mem hmem⟩
              cases hr2 : (runLoop (processPoolsRow inp.sanitized) qr2.scans).2 with
              | err e =>
                refine finish2 ?_
                have hmem : m ∈ (runLoop (processStatsRow inp.sanitized) qr.scans).1
                    ++ (runLoop (processPoolsRow inp.sanitized) qr2.scans).1 := by
                  simpa [gather, hq, hc, hr, hi, hpq, hc2, hr2, List.mem_append] using hm
                exact List.mem_append.mp hmem
              | panics =>
                refine finish2 ?_
                have hmem : m ∈ (runLoop (processStatsRow inp.sanitized) qr.scans).1
                    ++ (runLoop (processPoolsRow inp.sanitized) qr2.scans).1 := by
                  simpa [gather, hq, hc, hr, hi, hpq, hc2, hr2, List.mem_append] using hm
                exact List.mem_append.mp hmem
              | ok u2 =>
                cases u2
                cases hi2 : qr2.iterErr with
                | some e =>
                  refine finish2 ?_
                  have hmem : m ∈ (runLoop (processStatsRow inp.sanitized) qr.scans).1
                      ++ (runLoop (processPoolsRow inp.sanitized) qr2.scans).1 := by
                    simpa [gather, hq, hc, hr, hi, hpq, hc2, hr2, hi2,
                      List.mem_append] using hm
                  exact List.mem_append.mp hmem
                | none =>
                  refine finish2 ?_
                  have hmem : m ∈ (runLoop (processStatsRow inp.sanitized) qr.scans).1
                      ++ (runLoop (processPoolsRow inp.sanitized) qr2.scans).1 := by
                    simpa [gather, hq, hc, hr, hi, hpq, hc2, hr2, hi2,
                      List.mem_append] using hm
                  exact List.mem_append.mp hmem

theorem dbnameOf_not_str_panics {row : Row} {v : ColumnValue}
    (hlk : row.lookup "database" = some v) (hns : ∀ s, v ≠ ColumnValue.str s) :
    dbnameOf row = GoResult.panics := by
  unfold dbnameOf
  rw [hlk]
  cases v with
  | str s => exact absurd rfl (hns s)
  | int64 i => rfl
  | float64 bits => rfl
  | boolean b => rfl
  | null => rfl

theorem accRow_panics {sanitized : Except GoError String} {row : Row}
    (hdb : dbnameOf row = GoResult.panics) :
    accRow sanitized (Except.ok row) = GoResult.panics := by
  simp [accRow, hdb]

theorem coerceCol_some_fst {p q : String × ColumnValue} (h : coerceCol p = some q) :
    q.1 = p.1 := by
  obtain ⟨c2, v2⟩ := p
  simp only [coerceCol] at h
  by_cases hig : c2 ∈ ignoredColumns
  · simp [hig] at h
  · rw [if_neg hig] at h
    cases v2 with
    | int64 i =>
      simp only [Option.some.injEq] at h
      rw [← h]
    | str s =>
      simp only [Option.map_eq_some'] at h
      obtain ⟨i, _, hq⟩ := h
      rw [← hq]
    | float64 bits => simp at h
    | boolean b => simp at h
    | null => simp at h

/-! ### The claims -/

/-- C1, counterexample: the claim says that whenever the "database"
column does not decode as a non-null string the db tag defaults to the
literal "postgres".  On a statistics row whose "database" column is
SQL NULL, the unchecked type assertion in accRow panics instead: the
cycle ends in a panic and no metric carrying a db tag is produced at
all. -/
theorem c1_counterexample :
    gather ⟨Except.ok "srv",
      Except.ok ⟨none, [Except.ok [("database", ColumnValue.null)]], none⟩,
      Except.ok ⟨none, [], none⟩⟩
      = ([], GoResult.panics) := rfl

/-- C1, amended: for every row in either pass, if no "database" column
exists the db tag is the literal "postgres"; if a "database" column
exists and its value is a string, the db tag is that string; if a
"database" column exists with a non-string value (including SQL NULL),
row processing panics on the unchecked type assertion and no tags are
produced. -/
theorem c1_db_tag (row : Row) (addr : String) :
    (row.lookup "database" = none → dbnameOf row = GoResult.ok "postgres") ∧
    (∀ s, row.lookup "database" = some (ColumnValue.str s) →
      dbnameOf row = GoResult.ok s) ∧
    (∀ v, row.lookup "database" = some v → (∀ s, v ≠ ColumnValue.str s) →
      accRow (Except.ok addr) (Except.ok row) = GoResult.panics) ∧
    (∀ dbname, dbnameOf row = GoResult.ok dbname →
      accRow (Except.ok addr) (Except.ok row)
        = GoResult.ok ([("server", addr), ("db", dbname)], row)) := by
  refine ⟨?_, ?_, ?_, ?_⟩
  · intro h
    simp [dbnameOf, h]
  · intro s h
    simp [dbnameOf, h]
  · intro v h hns
    exact accRow_panics (dbnameOf_not_str_panics h hns)
  · intro dbname h
    simp [accRow, h]

theorem c1_db_tag_witness :
    dbnameOf [("x", ColumnValue.int64 1)] = GoResult.ok "postgres" ∧
    accRow (Except.ok "srv") (Except.ok [("database", ColumnValue.str "app")])
      = GoResult.ok ([("server", "srv"), ("db", "app")],
          [("database", ColumnValue.str "app")]) :=
  ⟨(c1_db_tag [("x", ColumnValue.int64 1)] "srv").1 rfl,
   (c1_db_tag [("database", ColumnValue.str "app")] "srv").2.2.2 "app" rfl⟩

/-- C2: for every statistics-pass row and every column not in the
ignore set, a native int64 value is copied through into the field set;
a string value that parses as a base-10 signed 64-bit integer is
stored as the parsed integer; a string value that does not parse makes
the whole statsFields computation (and hence the result set) return an
error; a value of any other native type is silently omitted from the
field set. -/
theorem c2_stats_value_coercion (row : Row) (c : String) (v : ColumnValue)
    (hnd : (row.map Prod.fst).Nodup) (hmem : (c, v) ∈ row)
    (hni : c ∉ ignoredColumns) :
    (∀ i, v = ColumnValue.int64 i →
       ∀ fs, statsFields row = Except.ok fs → (c, ColumnValue.int64 i) ∈ fs) ∧
    (∀ s i, v = ColumnValue.str s → goParseInt64 s = some i →
       ∀ fs, statsFields row = Except.ok fs → (c, ColumnValue.int64 i) ∈ fs) ∧
    (∀ s, v = ColumnValue.str s → goParseInt64 s = none →
       ∃ e, statsFields row = Except.error e) ∧
    ((∀ i, v ≠ ColumnValue.int64 i) → (∀ s, v ≠ ColumnValue.str s) →
       ∀ fs, statsFields row = Except.ok fs → ∀ w, (c, w) ∉ fs) := by
  refine ⟨?_, ?_, ?_, ?_⟩
  · rintro i rfl fs hfs
    obtain ⟨_, rfl⟩ := (statsFields_ok_iff row fs).mp hfs
    exact List.mem_filterMap.mpr
      ⟨(c, ColumnValue.int64 i), hmem, by simp [coerceCol, hni]⟩
  · rintro s i rfl hp fs hfs
    obtain ⟨_, rfl⟩ := (statsFields_ok_iff row fs).mp hfs
    exact List.mem_filterMap.mpr
      ⟨(c, ColumnValue.str s), hmem, by simp [coerceCol, hni, hp]⟩
  · rintro s rfl hbad
    exact statsFields_error_of_bad hmem hni hbad
  · intro hi hs fs hfs w hw
    obtain ⟨_, rfl⟩ := (statsFields_ok_iff row fs).mp hfs
    obtain ⟨p2, hmem2, hcoe⟩ := List.mem_filterMap.mp hw
    obtain ⟨c2, v2⟩ := p2
    obtain rfl : c2 = c := by simpa using (coerceCol_some_fst hcoe).symm
    obtain rfl : v2 = v := keys_nodup_val_unique hnd hmem2 hmem
    cases v2 with
    | int64 i => exact absurd rfl (hi i)
    | str s => exact absurd rfl (hs s)
    | float64 bits => simp [coerceCol, hni] at hcoe
    | boolean b => simp [coerceCol, hni] at hcoe
    | null => simp [coerceCol, hni] at hcoe

theorem c2_stats_value_coercion_witness :
    (([("b", ColumnValue.str "7")] : Row).map Prod.fst).Nodup ∧
    ("b", ColumnValue.int64 7) ∈ ([("b", ColumnValue.int64 7)] : FieldSet) :=
  ⟨by decide,
   (c2_stats_value_coercion [("b", ColumnValue.str "7")] "b" (ColumnValue.str "7")
      (by decide) (by decide) (by decide)).2.1 "7" 7 rfl rfl
      [("b", ColumnValue.int64 7)] rfl⟩

/-- C3, counterexample: the claim says that a statistics-pass row with
an unparseable non-ignored string field makes the cycle fail with no
metrics emitted for that cycle.  The failure part holds, but metrics
from rows processed before the failing row have already been handed to
the accumulator: here the first row has been emitted as a metric even
though the second row aborts the cycle. -/
theorem c3_counterexample :
    (gather ⟨Except.ok "srv",
      Except.ok ⟨none, [Except.ok [("ok_col", ColumnValue.int64 1)],
        Except.ok [("foo", ColumnValue.str "abc")]], none⟩,
      Except.ok ⟨none, [], none⟩⟩).2 = GoResult.err (GoError.parseInt "abc") ∧
    (gather ⟨Except.ok "srv",
      Except.ok ⟨none, [Except.ok [("ok_col", ColumnValue.int64 1)],
        Except.ok [("foo", ColumnValue.str "abc")]], none⟩,
      Except.ok ⟨none, [], none⟩⟩).1
      = [⟨"odyssey", [("server", "srv"), ("db", "postgres")],
          [("ok_col", ColumnValue.int64 1)]⟩] :=
  ⟨rfl, rfl⟩

/-- C3, amended: if any successfully scanned statistics-pass row
contains a non-ignored field column whose value is a string that is
not parseable as a base-10 signed 64-bit integer, the collection cycle
does not succeed; no metric is emitted for the failing row or any row
after it, while rows processed before the failure have already emitted
their metrics. -/
theorem c3_stats_parse_failure (inp : GatherInput) (qr : QueryResult)
    (pre post : List (Except GoError Row)) (badRow : Row) (c s : String)
    (h1 : inp.statsQuery = Except.ok qr) (h2 : qr.columnsErr = none)
    (h3 : qr.scans = pre ++ Except.ok badRow :: post)
    (h4 : (c, ColumnValue.str s) ∈ badRow) (h5 : c ∉ ignoredColumns)
    (h6 : goParseInt64 s = none) :
    (gather inp).2 ≠ GoResult.ok () ∧
    (gather inp).1.length ≤ pre.length ∧
    ((∀ x ∈ pre, ∃ m, processStatsRow inp.sanitized x = GoResult.ok m) →
      List.Forall₂
        (fun scan m => processStatsRow inp.sanitized scan = GoResult.ok m)
        pre (gather inp).1) := by
  have hbad : ∀ m, processStatsRow inp.sanitized (Except.ok badRow)
      ≠ GoResult.ok m := by
    intro m hok
    obtain ⟨addr, dbname, row2, fields, _, hscan, _, hsf, _⟩ :=
      processStatsRow_ok_inv hok
    obtain rfl : badRow = row2 := by injection hscan
    obtain ⟨hg, _⟩ := (statsFields_ok_iff _ _).mp hsf
    exact hg c s h4 h5 h6
  have hmemscan : Except.ok badRow ∈ qr.scans := by
    rw [h3]
    exact List.mem_append.mpr (Or.inr (List.mem_cons_self _ _))
  have hfail := runLoop_not_ok (f := processStatsRow inp.sanitized) hmemscan hbad
  have hg := gather_stats_fail h1 h2 hfail
  refine ⟨?_, ?_, ?_⟩
  · rw [hg]
    exact hfail
  · simp only [hg]
    rw [h3]
    exact runLoop_len_le hbad pre post
  · intro hok
    obtain ⟨M, hF, hrun⟩ :=
      runLoop_prefix_ok (f := processStatsRow inp.sanitized) pre
        (Except.ok badRow :: post) hok
    have hempty :
        (runLoop (processStatsRow inp.sanitized) (Except.ok badRow :: post)).1
          = [] := by
      cases hf : processStatsRow inp.sanitized (Except.ok badRow) with
      | ok m => exact absurd hf (hbad m)
      | err e => simp [runLoop, hf]
      | panics => simp [runLoop, hf]
    simp only [hg]
    rw [h3, hrun]
    simp only [hempty, List.append_nil]
    exact hF

theorem c3_stats_parse_failure_witness :
    goParseInt64 "abc" = none ∧
    (gather ⟨Except.ok "srv",
      Except.ok ⟨none, [Except.ok [("a", ColumnValue.int64 2)],
        Except.ok [("foo", ColumnValue.str "abc")]], none⟩,
      Except.ok ⟨none, [], none⟩⟩).2 ≠ GoResult.ok () :=
  ⟨rfl,
   (c3_stats_parse_failure
      ⟨Except.ok "srv",
        Except.ok ⟨none, [Except.ok [("a", ColumnValue.int64 2)],
          Except.ok [("foo", ColumnValue.str "abc")]], none⟩,
        Except.ok ⟨none, [], none⟩⟩
      ⟨none, [Except.ok [("a", ColumnValue.int64 2)],
        Except.ok [("foo", ColumnValue.str "abc")]], none⟩
      [Except.ok [("a", ColumnValue.int64 2)]] []
      [("foo", ColumnValue.str "abc")] "foo" "abc"
      rfl rfl rfl (by decide) (by decide) rfl).1⟩

/-- C4: a statistics-pass row with columns user = "bob" (string),
database = "app" (string), avg_req = "5" (string) and
total_xact_count = 42 (int64) produces exactly one metric, with
measurement name "odyssey", tags server (the sanitized address) and
db = "app", and exactly one field total_xact_count = 42; the user,
database and avg_req columns appear neither as fields nor as extra
tags. -/
theorem c4_stats_row_example (addr : String) :
    gather ⟨Except.ok addr,
      Except.ok ⟨none,
        [Except.ok [("user", ColumnValue.str "bob"),
          ("database", ColumnValue.str "app"),
          ("avg_req", ColumnValue.str "5"),
          ("total_xact_count", ColumnValue.int64 42)]], none⟩,
      Except.ok ⟨none, [], none⟩⟩
      = ([⟨"odyssey", [("server", addr), ("db", "app")],
          [("total_xact_count", ColumnValue.int64 42)]⟩], GoResult.ok ()) := rfl

/-- C5: in the pool-status pass, for every successfully processed row
the user tag is present (with value s) exactly when the row has a
"user" column whose value is the non-empty string s, and likewise for
the pool_mode tag; the user and pool_mode columns are excluded from
the emitted field set in all cases. -/
theorem c5_pools_tag_extraction (sanitized : Except GoError String) (row : Row)
    (m : Metric) (h : processPoolsRow sanitized (Except.ok row) = GoResult.ok m) :
    (∀ s, m.tags.lookup "user" = some s ↔
       (row.lookup "user" = some (ColumnValue.str s) ∧ s ≠ "")) ∧
    (∀ s, m.tags.lookup "pool_mode" = some s ↔
       (row.lookup "pool_mode" = some (ColumnValue.str s) ∧ s ≠ "")) ∧
    (∀ w, ("user", w) ∉ m.fields) ∧
    (∀ w, ("pool_mode", w) ∉ m.fields) := by
  obtain ⟨addr, dbname, row2, _, hscan, hdb, hm⟩ := processPoolsRow_ok_inv h
  obtain rfl : row = row2 := by injection hscan
  subst hm
  have hbaseU : ([("server", addr), ("db", dbname)] : TagSet).lookup "user"
      = none := rfl
  have hbaseP : ([("server", addr), ("db", dbname)] : TagSet).lookup "pool_mode"
      = none := rfl
  refine ⟨?_, ?_, ?_, ?_⟩
  · intro s
    unfold poolsTags
    rw [tagStrCol_lookup_ne (by decide : ("user" : String) ≠ "pool_mode")]
    exact tagStrCol_lookup_self hbaseU s
  · intro s
    unfold poolsTags
    have hbase2 :
        (tagStrCol [("server", addr), ("db", dbname)] "user"
          (row.lookup "user")).lookup "pool_mode" = none := by
      rw [tagStrCol_lookup_ne (by decide : ("pool_mode" : String) ≠ "user")]
      exact hbaseP
    exact tagStrCol_lookup_self hbase2 s
  · intro w hw
    have := (List.mem_filter.mp hw).2
    exact absurd (by decide : ("user" : String) ∈ ignoredColumns)
      (of_decide_eq_true this)
  · intro w hw
    have := (List.mem_filter.mp hw).2
    exact absurd (by decide : ("pool_mode" : String) ∈ ignoredColumns)
      (of_decide_eq_true this)

theorem c5_pools_tag_extraction_witness :
    ([("server", "srv"), ("db", "postgres"), ("user", "bob"),
      ("pool_mode", "transaction")] : TagSet).lookup "user" = some "bob" :=
  ((c5_pools_tag_extraction (Except.ok "srv")
      [("user", ColumnValue.str "bob"), ("pool_mode", ColumnValue.str "transaction"),
        ("cl_active", ColumnValue.int64 3)]
      ⟨"odyssey_pools",
        [("server", "srv"), ("db", "postgres"), ("user", "bob"),
          ("pool_mode", "transaction")],
        [("cl_active", ColumnValue.int64 3)]⟩ rfl).1 "bob").mpr
    ⟨rfl, by decide⟩

/-- C6: in the pool-status pass the emitted field set contains exactly
the columns whose names are not in the ignore set, each with its value
passed through unchanged regardless of native type; a row all of whose
columns are ignored still emits its odyssey_pools metric, with an
empty field set. -/
theorem c6_pools_passthrough :
    (∀ (row : Row) (c : String) (v : ColumnValue),
       ((c, v) ∈ poolsFields row ↔ ((c, v) ∈ row ∧ c ∉ ignoredColumns))) ∧
    gather ⟨Except.ok "srv", Except.ok ⟨none, [], none⟩,
      Except.ok ⟨none, [Except.ok [("user", ColumnValue.str "bob")]], none⟩⟩
      = ([⟨"odyssey_pools",
          [("server", "srv"), ("db", "postgres"), ("user", "bob")], []⟩],
         GoResult.ok ()) := by
  constructor
  · intro row c v
    simp [poolsFields, List.mem_filter]
  · rfl

/-- C7: every metric emitted in either pass carries the server tag,
whose value is the sanitized-address result; when the
sanitized-address call fails (and the db extraction has not panicked
before it), accRow returns that error, and as a consequence the cycle
aborts with it, with no metric emitted for the row. -/
theorem c7_server_tag :
    (∀ (inp : GatherInput) (addr : String), inp.sanitized = Except.ok addr →
       ∀ m ∈ (gather inp).1, m.tags.lookup "server" = some addr) ∧
    (∀ (e : GoError) (row : Row) (dbname : String),
       dbnameOf row = GoResult.ok dbname →
       accRow (Except.error e) (Except.ok row) = GoResult.err e) ∧
    (∀ (inp : GatherInput) (e : GoError) (qr : QueryResult) (row : Row)
       (rest : List (Except GoError Row)) (dbname : String),
       inp.sanitized = Except.error e → inp.statsQuery = Except.ok qr →
       qr.columnsErr = none → qr.scans = Except.ok row :: rest →
       dbnameOf row = GoResult.ok dbname →
       gather inp = ([], GoResult.err e)) := by
  refine ⟨?_, ?_, ?_⟩
  · intro inp addr hsan m hm
    rcases gather_metrics_src hm with
      ⟨qr, _, scan, _, hok⟩ | ⟨qr2, _, scan, _, hok⟩
    · obtain ⟨addr2, dbname, row, fields, hs2, _, _, _, rfl⟩ :=
        processStatsRow_ok_inv hok
      rw [hsan] at hs2
      obtain rfl : addr = addr2 := by injection hs2
      rfl
    · obtain ⟨addr2, dbname, row, hs2, _, _, rfl⟩ := processPoolsRow_ok_inv hok
      rw [hsan] at hs2
      obtain rfl : addr = addr2 := by injection hs2
      rw [show (⟨"odyssey_pools",
            poolsTags [("server", addr), ("db", dbname)] row,
            poolsFields row⟩ : Metric).tags
          = poolsTags [("server", addr), ("db", dbname)] row from rfl]
      rw [poolsTags_lookup_other (by decide) (by decide)]
      rfl
  · intro e row dbname hdb
    simp [accRow, hdb]
  · intro inp e qr row rest dbname hsan hq hc hscans hdb
    have hrow : processStatsRow inp.sanitized (Except.ok row)
        = GoResult.err e := by
      simp [processStatsRow, accRow, hdb, hsan]
    have hloop : runLoop (processStatsRow inp.sanitized) qr.scans
        = ([], GoResult.err e) := by
      rw [hscans]
      simp [runLoop, hrow]
    have hred := gather_stats_fail hq hc (by rw [hloop]; simp)
    rw [hred, hloop]

theorem c7_server_tag_witness :
    accRow (Except.error (GoError.external "bad dsn")) (Except.ok [("a", ColumnValue.int64 1)])
      = GoResult.err (GoError.external "bad dsn") ∧
    (Metric.tags ⟨"odyssey", [("server", "srv"), ("db", "postgres")],
        [("a", ColumnValue.int64 1)]⟩).lookup "server" = some "srv" :=
  ⟨c7_server_tag.2.1 (GoError.external "bad dsn") [("a", ColumnValue.int64 1)]
      "postgres" rfl,
   c7_server_tag.1
      ⟨Except.ok "srv",
        Except.ok ⟨none, [Except.ok [("a", ColumnValue.int64 1)]], none⟩,
        Except.ok ⟨none, [], none⟩⟩
      "srv" rfl
      ⟨"odyssey", [("server", "srv"), ("db", "postgres")],
        [("a", ColumnValue.int64 1)]⟩
      (by decide)⟩

/-- C8: if the end-of-iteration check of a result set reports an error
after every row of that result set was processed successfully, the
cycle fails with that error; this holds for the statistics pass and
for the pool-status pass. -/
theorem c8_iteration_error (inp : GatherInput) (qr qr2 : QueryResult)
    (e e2 : GoError) (h1 : inp.statsQuery = Except.ok qr)
    (h2 : qr.columnsErr = none) :
    ((runLoop (processStatsRow inp.sanitized) qr.scans).2 = GoResult.ok () →
      qr.iterErr = some e → (gather inp).2 = GoResult.err e) ∧
    ((runLoop (processStatsRow inp.sanitized) qr.scans).2 = GoResult.ok () →
      qr.iterErr = none → inp.poolsQuery = Except.ok qr2 →
      qr2.columnsErr = none →
      (runLoop (processPoolsRow inp.sanitized) qr2.scans).2 = GoResult.ok () →
      qr2.iterErr = some e2 → (gather inp).2 = GoResult.err e2) := by
  constructor
  · intro h3 h4
    rw [gather_stats_iterr h1 h2 h3 h4]
  · intro h3 h4 h5 h6 h7 h8
    rw [gather_pools_iterr h1 h2 h3 h4 h5 h6 h7 h8]

theorem c8_iteration_error_witness :
    (gather ⟨Except.ok "srv",
      Except.ok ⟨none, [Except.ok [("a", ColumnValue.int64 1)]],
        some (GoError.external "stats iter")⟩,
      Except.ok ⟨none, [], none⟩⟩).2
      = GoResult.err (GoError.external "stats iter") ∧
    (gather ⟨Except.ok "srv",
      Except.ok ⟨none, [Except.ok [("a", ColumnValue.int64 1)]], none⟩,
      Except.ok ⟨none, [Except.ok [("b", ColumnValue.boolean true)]],
        some (GoError.external "pools iter")⟩⟩).2
      = GoResult.err (GoError.external "pools iter") :=
  ⟨(c8_iteration_error
      ⟨Except.ok "srv",
        Except.ok ⟨none, [Except.ok [("a", ColumnValue.int64 1)]],
          some (GoError.external "stats iter")⟩,
        Except.ok ⟨none, [], none⟩⟩
      ⟨none, [Except.ok [("a", ColumnValue.int64 1)]],
        some (GoError.external "stats iter")⟩
      ⟨none, [], none⟩ (GoError.external "stats iter")
      (GoError.external "stats iter") rfl rfl).1 rfl rfl,
   (c8_iteration_error
      ⟨Except.ok "srv",
        Except.ok ⟨none, [Except.ok [("a", ColumnValue.int64 1)]], none⟩,
        Except.ok ⟨none, [Except.ok [("b", ColumnValue.boolean true)]],
          some (GoError.external "pools iter")⟩⟩
      ⟨none, [Except.ok [("a", ColumnValue.int64 1)]], none⟩
      ⟨none, [Except.ok [("b", ColumnValue.boolean true)]],
        some (GoError.external "pools iter")⟩
      (GoError.external "pools iter") (GoError.external "pools iter")
      rfl rfl).2 rfl rfl rfl rfl rfl rfl⟩

/-- C9: row processing is deterministic and stateless: a row scan that
processes to a metric yields that same metric at whatever position it
occupies in whatever result set, independent of the rows around it; in
particular two runs over the identical scanned row, in different
surrounding result sets, emit identical metrics.  The row processor f
is arbitrary, covering both the statistics pass and the pool-status
pass. -/
theorem c9_row_processing_stateless
    (f : Except GoError Row → GoResult Metric)
    (pre1 pre2 post1 post2 : List (Except GoError Row))
    (scan : Except GoError Row) (m : Metric)
    (h1 : ∀ x ∈ pre1, ∃ mm, f x = GoResult.ok mm)
    (h2 : ∀ x ∈ pre2, ∃ mm, f x = GoResult.ok mm)
    (hm : f scan = GoResult.ok m) :
    (runLoop f (pre1 ++ scan :: post1)).1[pre1.length]? = some m ∧
    (runLoop f (pre2 ++ scan :: post2)).1[pre2.length]? = some m :=
  ⟨runLoop_get_pos hm pre1 post1 h1, runLoop_get_pos hm pre2 post2 h2⟩

theorem c9_row_processing_stateless_witness :
    (runLoop (processStatsRow (Except.ok "srv"))
      [Except.ok [("a", ColumnValue.int64 5)]]).1[0]?
      = some ⟨"odyssey", [("server", "srv"), ("db", "postgres")],
          [("a", ColumnValue.int64 5)]⟩ ∧
    (runLoop (processStatsRow (Except.ok "srv"))
      [Except.ok [("b", ColumnValue.int64 1)],
        Except.ok [("a", ColumnValue.int64 5)]]).1[1]?
      = some ⟨"odyssey", [("server", "srv"), ("db", "postgres")],
          [("a", ColumnValue.int64 5)]⟩ :=
  c9_row_processing_stateless (processStatsRow (Except.ok "srv"))
    [] [Except.ok [("b", ColumnValue.int64 1)]] [] []
    (Except.ok [("a", ColumnValue.int64 5)])
    ⟨"odyssey", [("server", "srv"), ("db", "postgres")],
      [("a", ColumnValue.int64 5)]⟩
    (by intro x hx; cases hx)
    (by
      intro x hx
      simp only [List.mem_singleton] at hx
      subst hx
      exact ⟨⟨"odyssey", [("server", "srv"), ("db", "postgres")],
        [("b", ColumnValue.int64 1)]⟩, rfl⟩)
    rfl

/-- C10, implicit: when a row has a "database" column whose scanned
value is not of string type (for example SQL NULL, decoded as a nil
interface), accRow performs an unchecked type assertion to string that
panics instead of returning an error or defaulting the db tag to
"postgres"; the panic branch of the embedded function is reachable for
such inputs, as the witness shows. -/
theorem c10_database_type_assertion (sanitized : Except GoError String)
    (row : Row) (v : ColumnValue) (hlk : row.lookup "database" = some v)
    (hns : ∀ s, v ≠ ColumnValue.str s) :
    accRow sanitized (Except.ok row) = GoResult.panics :=
  accRow_panics (dbnameOf_not_str_panics hlk hns)

theorem c10_database_type_assertion_witness :
    accRow (Except.ok "srv") (Except.ok [("database", ColumnValue.null)])
      = GoResult.panics :=
  c10_database_type_assertion (Except.ok "srv")
    [("database", ColumnValue.null)] ColumnValue.null rfl
    (fun _ h => ColumnValue.noConfusion h)

end Odyssey
